import Mathlib

set_option maxHeartbeats 1000000

/-!
Shallow embedding of the gossip-based broadcast node from
`src/src/bin/broadcast.rs`.  Rust `HashSet<u64>` is modelled as `Finset Nat`,
`HashMap<String, HashSet<u64>>` as an association list
`List (String × Finset Nat)` with the entry/extend discipline the code uses,
and `HashMap<String, Vec<String>>` (the topology payload) as
`List (String × List String)`.  Message handling
(`Message::process_received_message`) becomes a pure function
`Node → Node × Option Message`, and the gossip timer branch of
`Event::process_received_event` becomes `gossip_tick`, a structural recursion
over the neighbour list that mirrors the `for i in 0..node.neighbours.len()`
loop, collecting the sent messages in order.
-/

/-- Tagged message bodies, one constructor per Rust `Body` variant. -/
inductive Body where
  | init (msg_id : Nat) (node_id : String) (node_ids : List String)
  | initOk (msg_id : Nat) (in_reply_to : Nat)
  | broadcast (msg_id : Nat) (message : Nat)
  | broadcastOk (msg_id : Nat) (in_reply_to : Nat)
  | read (msg_id : Nat)
  | readOk (msg_id : Nat) (in_reply_to : Nat) (messages : Finset Nat)
  | topology (msg_id : Nat) (topology : List (String × List String))
  | topologyOk (msg_id : Nat) (in_reply_to : Nat)
  | gossip (msg_id : Nat) (messages : Finset Nat)
  | gossipOk (msg_id : Nat) (in_reply_to : Nat) (messages : Finset Nat)
deriving DecidableEq

/-- The envelope `{src, dest, body}`. -/
structure Message where
  src : String
  dest : String
  body : Body
deriving DecidableEq

/-- The node state (Rust struct `Node`). -/
structure Node where
  node_id : String
  msg_id : Nat
  messages : Finset Nat
  neighbours : List String
  messages_seen_by_others : List (String × Finset Nat)
deriving DecidableEq

/-- `Node::new`: the empty initial state. -/
def Node.new : Node :=
  { node_id := "", msg_id := 0, messages := ∅, neighbours := [],
    messages_seen_by_others := [] }

/-- `Node::incremented_msg_id`: bump the counter and return the new value. -/
def incremented_msg_id (n : Node) : Node × Nat :=
  ({ n with msg_id := n.msg_id + 1 }, n.msg_id + 1)

/-- `HashMap::get` on the association-list model of
`messages_seen_by_others`. -/
def mapLookup (m : List (String × Finset Nat)) (k : String) :
    Option (Finset Nat) :=
  match m with
  | [] => none
  | (k1, v) :: rest => if k1 = k then some v else mapLookup rest k

/-- `HashMap::entry(k).or_default().extend(s)`: extend the entry at `k` with
`s`, inserting a fresh entry (default empty set, then extended) when the key
is absent. -/
def mapEntryExtend (m : List (String × Finset Nat)) (k : String)
    (s : Finset Nat) : List (String × Finset Nat) :=
  match m with
  | [] => [(k, s)]
  | (k1, v) :: rest =>
      if k1 = k then (k1, v ∪ s) :: rest
      else (k1, v) :: mapEntryExtend rest k s

/-- `HashMap::remove`-as-lookup on the topology payload: the Rust code only
uses the returned value (the mutation of the inbound message is dropped with
the message). -/
def topoLookup (m : List (String × List String)) (k : String) :
    Option (List String) :=
  match m with
  | [] => none
  | (k1, v) :: rest => if k1 = k then some v else topoLookup rest k

/-- The values this node believes neighbour `nbr` has acknowledged, empty
when no record exists. -/
def seenOf (node : Node) (nbr : String) : Finset Nat :=
  (mapLookup node.messages_seen_by_others nbr).getD ∅

/-- `Message::process_received_message`: dispatch on the body, mutate the
node, and return the optional reply (src and dest swapped relative to the
request). -/
def process_received_message (msg : Message) (node : Node) :
    Node × Option Message :=
  match msg.body with
  | Body.init mid nid _ =>
      let node1 : Node := { node with node_id := nid }
      let p := incremented_msg_id node1
      (p.1, some { src := msg.dest, dest := msg.src,
                   body := Body.initOk p.2 mid })
  | Body.broadcast mid v =>
      let node1 : Node := { node with messages := insert v node.messages }
      let p := incremented_msg_id node1
      (p.1, some { src := msg.dest, dest := msg.src,
                   body := Body.broadcastOk p.2 mid })
  | Body.read mid =>
      let p := incremented_msg_id node
      (p.1, some { src := msg.dest, dest := msg.src,
                   body := Body.readOk p.2 mid p.1.messages })
  | Body.topology mid topo =>
      let node1 : Node :=
        match topoLookup topo node.node_id with
        | some nbrs => { node with neighbours := nbrs }
        | none => node
      let p := incremented_msg_id node1
      (p.1, some { src := msg.dest, dest := msg.src,
                   body := Body.topologyOk p.2 mid })
  | Body.gossip mid s =>
      let node1 : Node := { node with messages := node.messages ∪ s }
      let p := incremented_msg_id node1
      (p.1, some { src := msg.dest, dest := msg.src,
                   body := Body.gossipOk p.2 mid s })
  | Body.gossipOk _ _ s =>
      ({ node with messages_seen_by_others :=
           mapEntryExtend node.messages_seen_by_others msg.src s }, none)
  | Body.initOk _ _ => (node, none)
  | Body.broadcastOk _ _ => (node, none)
  | Body.readOk _ _ _ => (node, none)
  | Body.topologyOk _ _ => (node, none)

/-- The delta computed for one neighbour inside the `GossipRequested`
branch: known values minus the acknowledged set, or the full known set when
no record exists. -/
def gossip_delta (node : Node) (nbr : String) : Finset Nat :=
  match mapLookup node.messages_seen_by_others nbr with
  | some seen => node.messages \ seen
  | none => node.messages

/-- The `for i in 0..node.neighbours.len()` loop of the `GossipRequested`
branch, as structural recursion over the remaining neighbour list: for each
neighbour compute the delta, draw a fresh message id, and send a gossip
message (unconditionally). -/
def gossip_tick_aux (node : Node) : List String → Node × List Message
  | [] => (node, [])
  | nbr :: rest =>
      let delta := gossip_delta node nbr
      let p := incremented_msg_id node
      let m : Message := { src := p.1.node_id, dest := nbr,
                           body := Body.gossip p.2 delta }
      let q := gossip_tick_aux p.1 rest
      (q.1, m :: q.2)

/-- One full gossip timer tick over the configured neighbour list. -/
def gossip_tick (node : Node) : Node × List Message :=
  gossip_tick_aux node node.neighbours

/-- The event type fed to the single consumer. -/
inductive Event where
  | message (msg : Message)
  | gossipRequested
  | shutdownSignal

/-- `Event::process_received_event`: returns the new node state and the list
of output lines written for this event. -/
def process_received_event (ev : Event) (node : Node) :
    Node × List Message :=
  match ev with
  | Event.message m =>
      let p := process_received_message m node
      (p.1, p.2.toList)
  | Event.gossipRequested => gossip_tick node
  | Event.shutdownSignal => (node, [])

/-- Run a list of events through the single consumer, keeping only the final
state. -/
def run_events (node : Node) : List Event → Node
  | [] => node
  | e :: rest => run_events (process_received_event e node).1 rest

/-- Field extractor: the `msg_id` every body carries. -/
def body_msg_id : Body → Nat
  | Body.init m _ _ => m
  | Body.initOk m _ => m
  | Body.broadcast m _ => m
  | Body.broadcastOk m _ => m
  | Body.read m => m
  | Body.readOk m _ _ => m
  | Body.topology m _ => m
  | Body.topologyOk m _ => m
  | Body.gossip m _ => m
  | Body.gossipOk m _ _ => m

/-- Field extractor: the `in_reply_to` of reply bodies. -/
def body_in_reply_to : Body → Option Nat
  | Body.initOk _ r => some r
  | Body.broadcastOk _ r => some r
  | Body.readOk _ r _ => some r
  | Body.topologyOk _ r => some r
  | Body.gossipOk _ r _ => some r
  | _ => none

/-- Discriminator for the `init` body kind. -/
def Body.isInit : Body → Bool
  | Body.init _ _ _ => true
  | _ => false

/-- Bumping the message id counter changes nothing but the counter, so the
delta computed for a neighbour is unaffected. -/
lemma gossip_delta_msg_id (node : Node) (m : Nat) (nbr : String) :
    gossip_delta { node with msg_id := m } nbr = gossip_delta node nbr := rfl

/-- The loop of the gossip tick only advances the message id counter: one
increment per remaining neighbour. -/
lemma gossip_tick_aux_node (node : Node) (l : List String) :
    (gossip_tick_aux node l).1 =
      { node with msg_id := node.msg_id + l.length } := by
  induction l generalizing node with
  | nil => simp [gossip_tick_aux]
  | cons a t ih =>
      simp only [gossip_tick_aux, incremented_msg_id]
      rw [ih]
      simp only [List.length_cons]
      congr 1
      omega

/-- The gossip tick emits exactly one message per remaining neighbour. -/
lemma gossip_tick_aux_length (node : Node) (l : List String) :
    (gossip_tick_aux node l).2.length = l.length := by
  induction l generalizing node with
  | nil => rfl
  | cons a t ih => simp [gossip_tick_aux, ih]

/-- Shape of the k-th message emitted by the gossip tick loop: a gossip
message from this node to the k-th neighbour, with the k-th fresh id and the
delta computed against the pre-tick state. -/
lemma gossip_tick_aux_get (node : Node) (l : List String) (k : Nat)
    (hk : k < l.length) :
    (gossip_tick_aux node l).2.get
        ⟨k, by rw [gossip_tick_aux_length]; exact hk⟩ =
      { src := node.node_id, dest := l.get ⟨k, hk⟩,
        body := Body.gossip (node.msg_id + k + 1)
          (gossip_delta node (l.get ⟨k, hk⟩)) } := by
  induction l generalizing node k with
  | nil => exact absurd hk (by simp)
  | cons a t ih =>
      cases k with
      | zero => simp [gossip_tick_aux, incremented_msg_id]
      | succ k1 =>
          have hk1 : k1 < t.length := by simpa using hk
          have := ih { node with msg_id := node.msg_id + 1 } k1 hk1
          simp only [gossip_tick_aux, incremented_msg_id, List.get] at this ⊢
          rw [this]
          congr 2
          omega

/-- Looking up the extended key yields the previous set (empty when absent)
unioned with the new one. -/
lemma mapEntryExtend_lookup_self (m : List (String × Finset Nat))
    (k : String) (s : Finset Nat) :
    mapLookup (mapEntryExtend m k s) k =
      some ((mapLookup m k).getD ∅ ∪ s) := by
  induction m with
  | nil => simp [mapEntryExtend, mapLookup]
  | cons hd tl ih =>
      by_cases h : hd.1 = k
      · simp [mapEntryExtend, mapLookup, h]
      · simp [mapEntryExtend, mapLookup, h, ih]

/-- Extending one key leaves lookups at other keys unchanged. -/
lemma mapEntryExtend_lookup_ne (m : List (String × Finset Nat))
    (k k1 : String) (s : Finset Nat) (h : k1 ≠ k) :
    mapLookup (mapEntryExtend m k s) k1 = mapLookup m k1 := by
  have hk : ¬ k = k1 := fun e => h e.symm
  induction m with
  | nil => simp [mapEntryExtend, mapLookup, hk]
  | cons hd tl ih =>
      obtain ⟨a, v⟩ := hd
      by_cases h2 : a = k
      · subst h2
        simp [mapEntryExtend, mapLookup, hk]
      · simp [mapEntryExtend, mapLookup, h2, ih]

/-- Entry extension never removes values: the set recorded at any key only
grows. -/
lemma mapEntryExtend_mono (m : List (String × Finset Nat))
    (k k1 : String) (s : Finset Nat) :
    (mapLookup m k1).getD ∅ ⊆
      (mapLookup (mapEntryExtend m k s) k1).getD ∅ := by
  by_cases h : k1 = k
  · subst h
    rw [mapEntryExtend_lookup_self]
    exact Finset.subset_union_left
  · rw [mapEntryExtend_lookup_ne m k k1 s h]

/-- Handling any single message never removes a value from any entry of
`messages_seen_by_others`. -/
lemma seenOf_mono_message (msg : Message) (node : Node) (nbr : String) :
    seenOf node nbr ⊆ seenOf (process_received_message msg node).1 nbr := by
  cases msg with
  | mk s d b =>
      cases b <;>
        simp [process_received_message, incremented_msg_id, seenOf] <;>
        first
          | exact fun _ h => h
          | exact mapEntryExtend_mono _ _ _ _
          | skip
      case topology mid topo =>
        cases topoLookup topo node.node_id <;>
          exact fun _ h => h

/-- Handling any single event never removes a value from any entry of
`messages_seen_by_others`. -/
lemma seenOf_mono_event (ev : Event) (node : Node) (nbr : String) :
    seenOf node nbr ⊆ seenOf (process_received_event ev node).1 nbr := by
  cases ev with
  | message m => exact seenOf_mono_message m node nbr
  | gossipRequested =>
      show seenOf node nbr ⊆ seenOf (gossip_tick node).1 nbr
      rw [gossip_tick, gossip_tick_aux_node]
      exact fun _ h => h
  | shutdownSignal => exact fun _ h => h

/-- Across any run of events, `seen_by_neighbor` entries only grow. -/
lemma seenOf_mono_run (evs : List Event) (node : Node) (nbr : String) :
    seenOf node nbr ⊆ seenOf (run_events node evs) nbr := by
  induction evs generalizing node with
  | nil => exact fun _ h => h
  | cons e t ih =>
      exact fun x hx =>
        ih (process_received_event e node).1
          (seenOf_mono_event e node nbr hx)

/-- A value currently recorded as seen by a neighbour is excluded from the
delta computed for that neighbour. -/
lemma seenOf_not_mem_delta (node : Node) (nbr : String) (x : Nat)
    (hx : x ∈ seenOf node nbr) : x ∉ gossip_delta node nbr := by
  unfold seenOf at hx
  unfold gossip_delta
  cases h : mapLookup node.messages_seen_by_others nbr with
  | none => rw [h] at hx; simp at hx
  | some seen =>
      rw [h] at hx
      simp only [Option.getD_some] at hx
      simp [hx]

/-- Example node state used for concrete evaluations: node `n1` knows the
value 1000, has sole neighbour `n2`, and has recorded that `n2` already
acknowledged 1000. -/
def exNode : Node :=
  { node_id := "n1", msg_id := 3, messages := {1000}, neighbours := ["n2"],
    messages_seen_by_others := [("n2", {1000})] }

example : Node.new.msg_id = 0 := rfl

example :
    (process_received_message
      { src := "c1", dest := "n1", body := Body.init 1 "n1" ["n1"] }
      Node.new).2 =
    some { src := "n1", dest := "c1", body := Body.initOk 1 1 } := rfl

/-- Counter monotonicity for a single message: handling never decreases the
message id counter. -/
lemma msg_id_mono_message (msg : Message) (node : Node) :
    node.msg_id ≤ (process_received_message msg node).1.msg_id := by
  cases msg with
  | mk s d b =>
      cases b <;>
        simp [process_received_message, incremented_msg_id] <;>
        try omega
      case topology mid topo =>
        cases topoLookup topo node.node_id <;> simp [incremented_msg_id]

/-- Counter monotonicity for a single event. -/
lemma msg_id_mono_event (ev : Event) (node : Node) :
    node.msg_id ≤ (process_received_event ev node).1.msg_id := by
  cases ev with
  | message m => exact msg_id_mono_message m node
  | gossipRequested =>
      show node.msg_id ≤ (gossip_tick node).1.msg_id
      rw [gossip_tick, gossip_tick_aux_node]
      simp
  | shutdownSignal => exact le_refl _

/-- The claim C1 fails on the code: at a state where the delta for neighbour
`n2` is empty (everything known is already acknowledged by `n2`), the
gossip tick still sends exactly one gossip message to `n2`; the loop has no
non-emptiness guard. -/
theorem C1_counterexample :
    gossip_delta exNode "n2" = ∅ ∧
    ((gossip_tick exNode).2.filter (fun m => m.dest == "n2")).length = 1 := by
  constructor
  · decide
  · rfl

/-- Claim C1 as amended: on every gossip tick the scheduler emits exactly one
gossip message per configured neighbour, in order, carrying the delta of
known values minus the values seen by that neighbour (the full known set when
no record exists), unconditionally, even when that delta is empty. -/
theorem C1_amended (node : Node) (k : Nat)
    (hk : k < node.neighbours.length) :
    ((gossip_tick node).2).length = node.neighbours.length ∧
    (gossip_tick node).2.get
        ⟨k, by rw [gossip_tick, gossip_tick_aux_length]; exact hk⟩ =
      { src := node.node_id, dest := node.neighbours.get ⟨k, hk⟩,
        body := Body.gossip (node.msg_id + k + 1)
          (gossip_delta node (node.neighbours.get ⟨k, hk⟩)) } := by
  refine ⟨?_, ?_⟩
  · rw [gossip_tick, gossip_tick_aux_length]
  · exact gossip_tick_aux_get node node.neighbours k hk

/-- Witness for C1_amended at the concrete node `exNode`: the single
neighbour `n2` receives a gossip message with the (empty) delta and the
fresh id 4. -/
theorem C1_witness :
    ((gossip_tick exNode).2).length = exNode.neighbours.length ∧
    (gossip_tick exNode).2.get ⟨0, by decide⟩ =
      { src := "n1", dest := "n2", body := Body.gossip 4 ∅ } := by
  have h := C1_amended exNode 0 (by decide)
  refine ⟨h.1, ?_⟩
  rw [h.2]
  decide

/-- Claim C2: after a gossip_ok from `nbr` carrying `S` is processed, every
member of `S` is excluded from the delta computed for `nbr` on any later
tick, whatever events intervene (entries of `seen_by_neighbor` only grow, so
members of `S` are still present at delta-computation time). -/
theorem C2_anti_entropy (node : Node) (nbr d : String) (mid irt : Nat)
    (S : Finset Nat) (evs : List Event) (x : Nat) (hx : x ∈ S) :
    x ∉ gossip_delta
        (run_events
          ((process_received_message
            { src := nbr, dest := d, body := Body.gossipOk mid irt S }
            node).1) evs) nbr := by
  apply seenOf_not_mem_delta
  apply seenOf_mono_run
  show x ∈ seenOf
      { node with messages_seen_by_others :=
          mapEntryExtend node.messages_seen_by_others nbr S } nbr
  unfold seenOf
  simp only []
  rw [mapEntryExtend_lookup_self]
  simp [hx]

/-- Witness for C2_anti_entropy: at `exNode`, after `n2` acknowledges the
set containing 5, the delta of the very next tick does not contain 5. -/
theorem C2_witness :
    (5 : Nat) ∈ ({5} : Finset Nat) ∧
    (5 : Nat) ∉ gossip_delta
        (run_events
          ((process_received_message
            { src := "n2", dest := "n1", body := Body.gossipOk 9 3 {5} }
            exNode).1) [Event.gossipRequested]) "n2" :=
  ⟨by decide,
   C2_anti_entropy exNode "n2" "n1" 9 3 {5} [Event.gossipRequested] 5
     (by decide)⟩

/-- Claim C3: handling an inbound gossip message unions its `messages` into
`known_values`, bumps the counter once, and produces exactly one reply: a
gossip_ok carrying back exactly the same set, with src and dest swapped. -/
theorem C3_gossip_reply (s d : String) (mid : Nat) (S : Finset Nat)
    (node : Node) :
    process_received_message
        { src := s, dest := d, body := Body.gossip mid S } node =
      ({ node with messages := node.messages ∪ S,
                   msg_id := node.msg_id + 1 },
       some { src := d, dest := s,
              body := Body.gossipOk (node.msg_id + 1) mid S }) := rfl

/-- Claim C4: `known_values` is append-only. Handling any event (inbound
message, gossip tick, or shutdown signal) yields a state whose `messages`
set contains the previous one. -/
theorem C4_monotonic (ev : Event) (node : Node) :
    node.messages ⊆ (process_received_event ev node).1.messages := by
  cases ev with
  | message m =>
      show node.messages ⊆ (process_received_message m node).1.messages
      cases m with
      | mk s d b =>
          cases b <;>
            simp [process_received_message, incremented_msg_id] <;>
            first
              | exact fun _ h => h
              | exact Finset.subset_insert _ _
              | exact Finset.subset_union_left
              | skip
          case topology mid topo =>
            cases topoLookup topo node.node_id <;> exact fun _ h => h
  | gossipRequested =>
      show node.messages ⊆ (gossip_tick node).1.messages
      rw [gossip_tick, gossip_tick_aux_node]
  | shutdownSignal => exact fun _ h => h

/-- Claim C5: every reply carries the freshly incremented counter value as
its `msg_id`, an `in_reply_to` equal to the request body's `msg_id`, and
src and dest equal to the request's dest and src; producing a reply advances
the counter by exactly one, and no event ever decreases the counter (so
reply ids are strictly increasing and never reused). -/
theorem C5_reply_ids (msg : Message) (node : Node) (reply : Message)
    (h : (process_received_message msg node).2 = some reply) :
    reply.src = msg.dest ∧ reply.dest = msg.src ∧
    body_msg_id reply.body = node.msg_id + 1 ∧
    body_in_reply_to reply.body = some (body_msg_id msg.body) ∧
    (process_received_message msg node).1.msg_id = node.msg_id + 1 ∧
    ∀ ev node2, node2.msg_id ≤ ((process_received_event ev node2).1).msg_id := by
  cases msg with
  | mk s d b =>
      cases b with
      | init mid nid ids =>
          simp only [process_received_message, incremented_msg_id,
            Option.some.injEq] at h
          subst h
          exact ⟨rfl, rfl, rfl, rfl, rfl, msg_id_mono_event⟩
      | broadcast mid v =>
          simp only [process_received_message, incremented_msg_id,
            Option.some.injEq] at h
          subst h
          exact ⟨rfl, rfl, rfl, rfl, rfl, msg_id_mono_event⟩
      | read mid =>
          simp only [process_received_message, incremented_msg_id,
            Option.some.injEq] at h
          subst h
          exact ⟨rfl, rfl, rfl, rfl, rfl, msg_id_mono_event⟩
      | topology mid topo =>
          cases ht : topoLookup topo node.node_id <;>
            simp only [process_received_message, incremented_msg_id, ht,
              Option.some.injEq] at h <;>
            subst h <;>
            exact ⟨rfl, rfl, rfl, rfl, by
              simp [process_received_message, incremented_msg_id, ht],
              msg_id_mono_event⟩
      | gossip mid S =>
          simp only [process_received_message, incremented_msg_id,
            Option.some.injEq] at h
          subst h
          exact ⟨rfl, rfl, rfl, rfl, rfl, msg_id_mono_event⟩
      | gossipOk mid irt S => simp [process_received_message] at h
      | initOk mid irt => simp [process_received_message] at h
      | broadcastOk mid irt => simp [process_received_message] at h
      | readOk mid irt S => simp [process_received_message] at h
      | topologyOk mid irt => simp [process_received_message] at h

/-- Witness for C5_reply_ids: on the fresh node (counter 0), the first init
message gets a reply whose id is 1 and whose `in_reply_to` is the request
id. -/
theorem C5_witness :
    (process_received_message
        { src := "c1", dest := "n1", body := Body.init 1 "n1" ["n1"] }
        Node.new).2 =
      some { src := "n1", dest := "c1", body := Body.initOk 1 1 } ∧
    body_msg_id (Body.initOk 1 1) = Node.new.msg_id + 1 ∧
    body_in_reply_to (Body.initOk 1 1) = some 1 := by
  have h : (process_received_message
      { src := "c1", dest := "n1", body := Body.init 1 "n1" ["n1"] }
      Node.new).2 =
      some { src := "n1", dest := "c1", body := Body.initOk 1 1 } := rfl
  have h2 := C5_reply_ids _ Node.new _ h
  exact ⟨h, h2.2.2.1, h2.2.2.2.1⟩

/-- Claim C6: applying the same gossip message twice leaves `known_values`
unchanged after the first application (set union is idempotent). -/
theorem C6_idempotent (s d : String) (mid : Nat) (S : Finset Nat)
    (node : Node) :
    ((process_received_message
        { src := s, dest := d, body := Body.gossip mid S }
        ((process_received_message
          { src := s, dest := d, body := Body.gossip mid S } node).1)).1).messages =
      ((process_received_message
        { src := s, dest := d, body := Body.gossip mid S } node).1).messages := by
  simp [process_received_message, incremented_msg_id, Finset.union_assoc]

/-- Claim C7: reply-kind bodies produce no reply; init_ok, broadcast_ok,
read_ok and topology_ok leave the state entirely unchanged, while gossip_ok
only extends the `seen_by_neighbor` entry of its sender. -/
theorem C7_reply_bodies (s d : String) (mid irt : Nat) (S : Finset Nat)
    (node : Node) :
    process_received_message
        { src := s, dest := d, body := Body.initOk mid irt } node =
      (node, none) ∧
    process_received_message
        { src := s, dest := d, body := Body.broadcastOk mid irt } node =
      (node, none) ∧
    process_received_message
        { src := s, dest := d, body := Body.readOk mid irt S } node =
      (node, none) ∧
    process_received_message
        { src := s, dest := d, body := Body.topologyOk mid irt } node =
      (node, none) ∧
    process_received_message
        { src := s, dest := d, body := Body.gossipOk mid irt S } node =
      ({ node with messages_seen_by_others :=
           mapEntryExtend node.messages_seen_by_others s S }, none) :=
  ⟨rfl, rfl, rfl, rfl, rfl⟩

/-- Claim C8: a topology message whose mapping has no entry for this node
leaves `neighbours` (and every field but the counter) unchanged while still
replying topology_ok; one with an entry replaces `neighbours` wholesale. -/
theorem C8_topology (s d : String) (mid : Nat)
    (topo : List (String × List String)) (node : Node) :
    (topoLookup topo node.node_id = none →
      process_received_message
          { src := s, dest := d, body := Body.topology mid topo } node =
        ({ node with msg_id := node.msg_id + 1 },
         some { src := d, dest := s,
                body := Body.topologyOk (node.msg_id + 1) mid })) ∧
    (∀ nbrs, topoLookup topo node.node_id = some nbrs →
      process_received_message
          { src := s, dest := d, body := Body.topology mid topo } node =
        ({ node with neighbours := nbrs, msg_id := node.msg_id + 1 },
         some { src := d, dest := s,
                body := Body.topologyOk (node.msg_id + 1) mid })) := by
  constructor
  · intro h
    simp [process_received_message, incremented_msg_id, h]
  · intro nbrs h
    simp [process_received_message, incremented_msg_id, h]

/-- Witness for C8_topology at `exNode`: a mapping without an `n1` entry
leaves the neighbour list `["n2"]` intact, a mapping with one replaces it by
`["n3"]`. -/
theorem C8_witness :
    process_received_message
        { src := "c1", dest := "n1",
          body := Body.topology 7 [("zz", ["q"])] } exNode =
      ({ exNode with msg_id := exNode.msg_id + 1 },
       some { src := "n1", dest := "c1",
              body := Body.topologyOk (exNode.msg_id + 1) 7 }) ∧
    process_received_message
        { src := "c1", dest := "n1",
          body := Body.topology 7 [("n1", ["n3"])] } exNode =
      ({ exNode with neighbours := ["n3"], msg_id := exNode.msg_id + 1 },
       some { src := "n1", dest := "c1",
              body := Body.topologyOk (exNode.msg_id + 1) 7 }) :=
  ⟨(C8_topology "c1" "n1" 7 [("zz", ["q"])] exNode).1 (by decide),
   (C8_topology "c1" "n1" 7 [("n1", ["n3"])] exNode).2 ["n3"] (by decide)⟩

/-- The claim C9 fails on the code: the init branch always reassigns
`node_id`, so a second init message handled after the first one changes
`node_id` from `n1` to `n2`. -/
theorem C9_counterexample :
    ((process_received_message
        { src := "c1", dest := "n1", body := Body.init 1 "n1" ["n1"] }
        Node.new).1).node_id = "n1" ∧
    ((process_received_message
        { src := "c1", dest := "n1", body := Body.init 2 "n2" ["n2"] }
        ((process_received_message
          { src := "c1", dest := "n1", body := Body.init 1 "n1" ["n1"] }
          Node.new).1)).1).node_id = "n2" := by
  constructor
  · rfl
  · rfl

/-- Claim C9 as amended: every init message (not only the first) assigns
`node_id` to the id carried in its body; handling any non-init message
leaves `node_id` unchanged. -/
theorem C9_amended (msg : Message) (node : Node) :
    ((process_received_message msg node).1).node_id =
      (match msg.body with
        | Body.init _ nid _ => nid
        | _ => node.node_id) := by
  cases msg with
  | mk s d b =>
      cases b
      case topology mid topo =>
        cases ht : topoLookup topo node.node_id <;>
          simp [process_received_message, incremented_msg_id, ht]
      all_goals rfl

/-- Claim C10: entries of `seen_by_neighbor` are append-only under every
event, and a gossip_ok from any sender (neighbour or not) creates or extends
the entry keyed by that sender with exactly the acknowledged set. -/
theorem C10_seen_append_only (ev : Event) (node : Node) (nbr : String)
    (s d : String) (mid irt : Nat) (S : Finset Nat) :
    seenOf node nbr ⊆ seenOf (process_received_event ev node).1 nbr ∧
    mapLookup (((process_received_message
        { src := s, dest := d, body := Body.gossipOk mid irt S }
        node).1).messages_seen_by_others) s =
      some (seenOf node s ∪ S) := by
  refine ⟨seenOf_mono_event ev node nbr, ?_⟩
  show mapLookup (mapEntryExtend node.messages_seen_by_others s S) s = _
  rw [mapEntryExtend_lookup_self]
  rfl
